import Mathlib

/-!
Verification of the binary ECU map decoder (`BinaryECUParser.extract_map_data`).

The embedding below is a shallow model of `src/BinaryECUParser.py`:

* a byte buffer is a `List Nat` (each entry is a byte value `0..255`);
* Python's slice `b[start : stop]` (step 1, possibly negative indices) is
  `pySlice`;
* the numpy dtypes `uint8 / int8 / >u2 / >i2 / <u2 / <i2` are the inductive
  `NpDtype`; `np.frombuffer` is `npFromBuffer` (which, like numpy, requires
  the buffer length to be a multiple of the item size); `reshape((rows,
  columns))` is `npReshape2D` (numpy's `-1` dimension inference is not
  exercised by this code base and is modelled as a failure);
* the floating-point values of the decoded grid are modelled as rationals
  (the specification's data model speaks of real numbers);
* a Python exception is an `ECUError` value in `Except`.

`extract_map_data` follows the Python source line by line: compute the byte
width from the substring test `'16bit' in data_type`, compute
`total_bytes`, bounds-check, slice, dispatch on the dtype string, decode,
scale, reshape.
-/

/-- Whether the character list contains `"16bit"` as a contiguous substring. -/
def has16bitSub : List Char → Bool
  | [] => false
  | c :: cs => ("16bit".toList).isPrefixOf (c :: cs) || has16bitSub cs

/-- Python's `'16bit' in data_type`. -/
def contains16bit (s : String) : Bool :=
  has16bitSub s.toList

/-- Line 56 of the source: `bytes_per_val = 2 if '16bit' in data_type else 1`. -/
def bytesPerVal (data_type : String) : Int :=
  if contains16bit data_type then 2 else 1

/-- CPython's normalisation of a slice index for a sequence of length `n`:
a negative index counts from the end, and the result is clamped to
`[0, n]`. -/
def pyIndex (n i : Int) : Int :=
  if i < 0 then max (n + i) 0 else min i n

/-- Python's `b[start : stop]` for a byte string (step 1, possibly negative
indices). -/
def pySlice (b : List Nat) (start stop : Int) : List Nat :=
  (b.drop (pyIndex (b.length : Int) start).toNat).take
    (pyIndex (b.length : Int) stop - pyIndex (b.length : Int) start).toNat

/-- The numpy dtypes the source can request: `np.uint8`, `np.int8`,
`'>u2'`, `'>i2'`, `'<u2'`, `'<i2'`. -/
inductive NpDtype where
  | u8 | i8 | u16be | i16be | u16le | i16le
  deriving DecidableEq, Repr

/-- Bytes per element of the dtype. -/
def NpDtype.itemsize : NpDtype → Nat
  | .u8 => 1
  | .i8 => 1
  | _ => 2

/-- Decode one element from one item-sized chunk of bytes, with the dtype's
byte order and two's-complement signedness. -/
def NpDtype.decodeOne : NpDtype → List Nat → Int
  | .u8, bs => (bs.headD 0 : Int)
  | .i8, bs =>
      let v := bs.headD 0
      if v < 128 then (v : Int) else (v : Int) - 256
  | .u16be, bs => (bs.headD 0 : Int) * 256 + (bs.getD 1 0 : Int)
  | .i16be, bs =>
      let v := bs.headD 0 * 256 + bs.getD 1 0
      if v < 32768 then (v : Int) else (v : Int) - 65536
  | .u16le, bs => (bs.getD 1 0 : Int) * 256 + (bs.headD 0 : Int)
  | .i16le, bs =>
      let v := bs.getD 1 0 * 256 + bs.headD 0
      if v < 32768 then (v : Int) else (v : Int) - 65536

/-- Lines 67-76 of the source: the dtype dispatch on `data_type` and
`is_signed`; `none` means the final `else` branch (`ValueError`). -/
def npDtypeOf (data_type : String) (is_signed : Bool) : Option NpDtype :=
  if data_type = "8bit" then some (if is_signed then .i8 else .u8)
  else if data_type = "16bit_hi_lo" then some (if is_signed then .i16be else .u16be)
  else if data_type = "16bit_lo_hi" then some (if is_signed then .i16le else .u16le)
  else none

/-- Decode `n` consecutive items of `d.itemsize` bytes each from the front of
`bs`. -/
def decodeChunksN (d : NpDtype) : Nat → List Nat → List Int
  | 0, _ => []
  | n + 1, bs => d.decodeOne (bs.take d.itemsize) :: decodeChunksN d n (bs.drop d.itemsize)

/-- `np.frombuffer(bs, dtype=d)`: fails unless the buffer length is a
multiple of the item size, otherwise decodes `length / itemsize` items. -/
def npFromBuffer (d : NpDtype) (bs : List Nat) : Option (List Int) :=
  if bs.length % d.itemsize = 0 then some (decodeChunksN d (bs.length / d.itemsize) bs) else none

/-- Split `xs` into `n` consecutive rows of `c` elements each. -/
def chunkRowsN (c : Nat) : Nat → List ℚ → List (List ℚ)
  | 0, _ => []
  | n + 1, xs => xs.take c :: chunkRowsN c n (xs.drop c)

/-- The error values of the parser: `IndexError` for the bounds check,
`ValueError` for an unsupported dtype, a numpy `ValueError` for a buffer
whose length is not a multiple of the item size, a numpy `ValueError` for a
reshape to an incompatible shape, and the specification's
`InvalidDescriptor` for descriptor validation. -/
inductive ECUError where
  | outOfBounds (address requested : Int) (bufLen : Nat)
  | unsupportedDataType (dt : String)
  | bufferSizeMismatch
  | reshapeMismatch
  | invalidDescriptor
  deriving DecidableEq, Repr

/-- `data.reshape((rows, columns))`: succeeds exactly when both dimensions
are non-negative and their product is the number of elements. (numpy also
accepts a single `-1` dimension to be inferred; the source never passes
`-1`, so it is modelled as a failure.) -/
def npReshape2D (xs : List ℚ) (rows columns : Int) : Except ECUError (List (List ℚ)) :=
  if rows < 0 ∨ columns < 0 then .error .reshapeMismatch
  else if (xs.length : Int) ≠ rows * columns then .error .reshapeMismatch
  else .ok (chunkRowsN columns.toNat rows.toNat xs)

/-- Lines 79-85 of the source, after the slice has been taken: reinterpret
the raw bytes under the dtype, convert to reals (`astype(float)`), scale by
`conversion_factor`, and reshape to `(rows, columns)`. -/
def decodeSliceToGrid (d : NpDtype) (raw_slice : List Nat) (rows columns : Int)
    (conversion_factor : ℚ) : Except ECUError (List (List ℚ)) :=
  match npFromBuffer d raw_slice with
  | none => .error .bufferSizeMismatch
  | some ints => npReshape2D (ints.map fun z : Int => (z : ℚ) * conversion_factor) rows columns

/-- `BinaryECUParser.extract_map_data` (lines 33-85 of the source):
byte width from the `'16bit'` substring test, `total_bytes`, bounds check
(raising `IndexError` with the address, the requested byte count and the
file size), Python slice, dtype dispatch (raising `ValueError` on an
unrecognised `data_type`), numpy decode, scaling, reshape. -/
def extract_map_data (binary_data : List Nat) (start_address columns rows : Int)
    (data_type : String) (is_signed : Bool) (conversion_factor : ℚ) :
    Except ECUError (List (List ℚ)) :=
  let bytes_per_val : Int := bytesPerVal data_type
  let total_bytes : Int := columns * rows * bytes_per_val
  if start_address + total_bytes > (binary_data.length : Int) then
    .error (.outOfBounds start_address total_bytes binary_data.length)
  else
    let raw_slice := pySlice binary_data start_address (start_address + total_bytes)
    match npDtypeOf data_type is_signed with
    | none => .error (.unsupportedDataType data_type)
    | some d => decodeSliceToGrid d raw_slice rows columns conversion_factor

/-- Modelled from the spec: descriptor validation. The repository's source
contains no `MapDescriptor` constructor (only the decoder and an example
driver), so this layer is taken from spec sections 4.3 and 8: whoever
builds a descriptor from a raw catalogue record must reject non-positive
`rows`/`columns` and a negative `start_address` with `InvalidDescriptor`
before calling the decoder. -/
def validateDescriptor (start_address columns rows : Int) : Except ECUError Unit :=
  if columns ≤ 0 ∨ rows ≤ 0 ∨ start_address < 0 then .error .invalidDescriptor
  else .ok ()

/-- The validated decode pipeline: descriptor validation first, the decoder
only when validation passed. -/
def decodeValidated (binary_data : List Nat) (start_address columns rows : Int)
    (data_type : String) (is_signed : Bool) (conversion_factor : ℚ) :
    Except ECUError (List (List ℚ)) :=
  match validateDescriptor start_address columns rows with
  | .error e => .error e
  | .ok _ => extract_map_data binary_data start_address columns rows data_type is_signed
      conversion_factor

/-- A raw catalogue entry (spec section 6): `type`, `signed` and `factor`
are optional. -/
structure MapEntry where
  name : String
  address : Int
  cols : Int
  rows : Int
  type? : Option String := none
  signed? : Option Bool := none
  factor? : Option ℚ := none

/-- The driver of the example usage (lines 104-116 of the source together
with the defaulted parameters of `extract_map_data`): a missing `type`
defaults to `"16bit_hi_lo"`, a missing `signed` to `false`, a missing
`factor` to `1.0`. -/
def extractFromEntry (binary_data : List Nat) (e : MapEntry) :
    Except ECUError (List (List ℚ)) :=
  extract_map_data binary_data e.address e.cols e.rows (e.type?.getD "16bit_hi_lo")
    (e.signed?.getD false) (e.factor?.getD 1)

/-! ### Basic facts about the embedding -/

lemma itemsize_pos (d : NpDtype) : 0 < d.itemsize := by
  cases d <;> decide

lemma contains16bit_8bit : contains16bit "8bit" = false := by decide

lemma contains16bit_hi_lo : contains16bit "16bit_hi_lo" = true := by decide

lemma contains16bit_lo_hi : contains16bit "16bit_lo_hi" = true := by decide

/-- For a recognised encoding the substring-based byte width of the source
agrees with the dtype's item size. -/
lemma bytesPerVal_of_dtype (dtype : String) (sg : Bool) (d : NpDtype)
    (hd : npDtypeOf dtype sg = some d) : bytesPerVal dtype = (d.itemsize : Int) := by
  unfold npDtypeOf at hd
  by_cases h8 : dtype = "8bit"
  · rw [if_pos h8] at hd
    obtain rfl := Option.some.inj hd
    subst h8
    cases sg <;> simp [bytesPerVal, contains16bit_8bit, NpDtype.itemsize]
  · rw [if_neg h8] at hd
    by_cases hbe : dtype = "16bit_hi_lo"
    · rw [if_pos hbe] at hd
      obtain rfl := Option.some.inj hd
      subst hbe
      cases sg <;> simp [bytesPerVal, contains16bit_hi_lo, NpDtype.itemsize]
    · rw [if_neg hbe] at hd
      by_cases hle : dtype = "16bit_lo_hi"
      · rw [if_pos hle] at hd
        obtain rfl := Option.some.inj hd
        subst hle
        cases sg <;> simp [bytesPerVal, contains16bit_lo_hi, NpDtype.itemsize]
      · rw [if_neg hle] at hd
        exact absurd hd (by simp)

/-- Python slicing with a non-negative start and an in-range stop is
`drop`-then-`take`. -/
lemma pySlice_nonneg (b : List Nat) (a t : Nat) (h : a + t ≤ b.length) :
    pySlice b (a : Int) ((a : Int) + (t : Int)) = (b.drop a).take t := by
  unfold pySlice pyIndex
  have h1 : ¬ ((a : Int) < 0) := by omega
  have h2 : ¬ ((a : Int) + (t : Int) < 0) := by omega
  rw [if_neg h1, if_neg h2]
  have e1 : (min (a : Int) ((b.length : Nat) : Int)).toNat = a := by omega
  have e2 : (min ((a : Int) + (t : Int)) ((b.length : Nat) : Int)
      - min (a : Int) ((b.length : Nat) : Int)).toNat = t := by omega
  rw [e1, e2]

/-- Python slicing with a negative start and a strictly negative stop,
both in range, reads from the end of the buffer. -/
lemma pySlice_negStart (b : List Nat) (start t : Int) (h1 : start < 0) (ht : 0 ≤ t)
    (h2 : start + t < 0) (h3 : 0 ≤ (b.length : Int) + start) :
    pySlice b start (start + t) =
      (b.drop ((b.length : Int) + start).toNat).take t.toNat := by
  unfold pySlice pyIndex
  rw [if_pos h1, if_pos h2]
  have e1 : (max ((b.length : Int) + start) 0).toNat = ((b.length : Int) + start).toNat := by
    omega
  have e2 : (max ((b.length : Int) + (start + t)) 0
      - max ((b.length : Int) + start) 0).toNat = t.toNat := by omega
  rw [e1, e2]

lemma decodeChunksN_length (d : NpDtype) (n : Nat) : ∀ bs, (decodeChunksN d n bs).length = n := by
  induction n with
  | zero => intro bs; rfl
  | succ n ih => intro bs; simp [decodeChunksN, ih]

/-- The `i`-th decoded item comes from the `i`-th item-sized chunk of the
buffer. -/
lemma decodeChunksN_getElem (d : NpDtype) (n : Nat) :
    ∀ (bs : List Nat) (i : Nat), i < n →
      (decodeChunksN d n bs)[i]? =
        some (d.decodeOne ((bs.drop (i * d.itemsize)).take d.itemsize)) := by
  induction n with
  | zero => intro bs i hi; omega
  | succ n ih =>
    intro bs i hi
    cases i with
    | zero => simp [decodeChunksN]
    | succ i =>
      rw [decodeChunksN, List.getElem?_cons_succ, ih (bs.drop d.itemsize) i (by omega),
        List.drop_drop]
      have e : d.itemsize + i * d.itemsize = (i + 1) * d.itemsize := by ring
      rw [e]

lemma chunkRowsN_length (c n : Nat) : ∀ xs, (chunkRowsN c n xs).length = n := by
  induction n with
  | zero => intro xs; rfl
  | succ n ih => intro xs; simp [chunkRowsN, ih]

/-- The `i`-th row is the `i`-th block of `c` consecutive elements. -/
lemma chunkRowsN_getElem (c n : Nat) :
    ∀ (xs : List ℚ) (i : Nat), i < n →
      (chunkRowsN c n xs)[i]? = some ((xs.drop (i * c)).take c) := by
  induction n with
  | zero => intro xs i hi; omega
  | succ n ih =>
    intro xs i hi
    cases i with
    | zero => simp [chunkRowsN]
    | succ i =>
      rw [chunkRowsN, List.getElem?_cons_succ, ih (xs.drop c) i (by omega), List.drop_drop]
      have e : c + i * c = (i + 1) * c := by ring
      rw [e]

/-- Every row of `chunkRowsN c r xs` has exactly `c` elements, provided
`xs` is long enough. -/
lemma chunkRowsN_row_length (c : Nat) :
    ∀ (r : Nat) (xs : List ℚ), c * r ≤ xs.length →
      ∀ row ∈ chunkRowsN c r xs, row.length = c := by
  intro r
  induction r with
  | zero => intro xs hlen row hrow; simp [chunkRowsN] at hrow
  | succ r ih =>
    intro xs hlen row hrow
    rw [chunkRowsN] at hrow
    rcases List.mem_cons.mp hrow with h | h
    · subst h
      rw [List.length_take]
      have : c ≤ xs.length := by
        calc c = c * 1 := by ring
        _ ≤ c * (r + 1) := Nat.mul_le_mul_left c (by omega)
        _ ≤ xs.length := hlen
      omega
    · refine ih (xs.drop c) ?_ row h
      rw [List.length_drop]
      have : c * (r + 1) = c * r + c := by ring
      omega

/-- When the bounds check passes and the dtype is recognised, the decoder
is the post-slice pipeline applied to the Python slice. -/
lemma extract_eq_pipeline (b : List Nat) (a c r : Int) (dtype : String) (sg : Bool) (f : ℚ)
    (d : NpDtype) (hd : npDtypeOf dtype sg = some d)
    (hb : a + c * r * bytesPerVal dtype ≤ (b.length : Int)) :
    extract_map_data b a c r dtype sg f =
      decodeSliceToGrid d (pySlice b a (a + c * r * bytesPerVal dtype)) r c f := by
  unfold extract_map_data
  rw [if_neg (not_lt.mpr hb), hd]

/-- When the bounds check fails, the decoder raises `IndexError` with the
address, the requested byte count and the file size, regardless of the
encoding. -/
lemma extract_outOfBounds (b : List Nat) (a c r : Int) (dtype : String) (sg : Bool) (f : ℚ)
    (hb : (b.length : Int) < a + c * r * bytesPerVal dtype) :
    extract_map_data b a c r dtype sg f =
      .error (.outOfBounds a (c * r * bytesPerVal dtype) b.length) := by
  unfold extract_map_data
  rw [if_pos hb]

/-- The post-slice pipeline on a well-formed slice of the buffer: it
succeeds and yields the row-major grid of scaled decoded integers. -/
lemma decodeSliceToGrid_ok (b : List Nat) (o r c : Nat) (d : NpDtype) (f : ℚ)
    (hc : 0 < c) (hlen : o + c * r * d.itemsize ≤ b.length) :
    ∃ g, decodeSliceToGrid d ((b.drop o).take (c * r * d.itemsize)) (r : Int) (c : Int) f =
        .ok g ∧
      g.length = r ∧ (∀ row ∈ g, row.length = c) ∧
      ∀ i : Nat, i < r * c →
        (g[i / c]?).bind (fun row => row[i % c]?) =
          some ((d.decodeOne ((b.drop (o + i * d.itemsize)).take d.itemsize) : ℚ) * f) := by
  have hwpos : 0 < d.itemsize := itemsize_pos d
  set w := d.itemsize with hw
  set t := c * r * w with ht
  set raw := (b.drop o).take t with hraw
  have hrawlen : raw.length = t := by
    rw [hraw, List.length_take, List.length_drop]
    omega
  have hmod : t % w = 0 := Nat.mul_mod_left (c * r) w
  have hdiv : t / w = c * r := Nat.mul_div_cancel (c * r) hwpos
  have hfb : npFromBuffer d raw = some (decodeChunksN d (c * r) raw) := by
    unfold npFromBuffer
    rw [hrawlen, if_pos hmod, hdiv]
  set ints := decodeChunksN d (c * r) raw with hints
  set data := ints.map (fun z : Int => (z : ℚ) * f) with hdata
  have hdatalen : data.length = c * r := by
    rw [hdata, List.length_map, hints, decodeChunksN_length]
  have hreshape : npReshape2D data (r : Int) (c : Int) = .ok (chunkRowsN c r data) := by
    unfold npReshape2D
    rw [if_neg (by omega),
      if_neg (by rw [hdatalen]; push_cast; ring_nf; exact not_ne_iff.mpr rfl)]
    congr 1
  refine ⟨chunkRowsN c r data, ?_, ?_, ?_, ?_⟩
  · unfold decodeSliceToGrid
    rw [hfb]
    dsimp only
    rw [← hdata, hreshape]
  · exact chunkRowsN_length c r data
  · exact chunkRowsN_row_length c r data (le_of_eq hdatalen.symm)
  · intro i hi
    have hic : i < c * r := lt_of_lt_of_eq hi (Nat.mul_comm r c)
    have hq : i / c < r := (Nat.div_lt_iff_lt_mul hc).mpr hi
    rw [chunkRowsN_getElem c r data (i / c) hq, Option.some_bind]
    have hrem : i % c < c := Nat.mod_lt i hc
    rw [List.getElem?_take, if_pos hrem, List.getElem?_drop]
    have hidx : i / c * c + i % c = i := by
      rw [Nat.mul_comm]
      exact Nat.div_add_mod i c
    rw [hidx, hdata, List.getElem?_map, hints,
      decodeChunksN_getElem d (c * r) raw i hic]
    have hsub : (raw.drop (i * w)).take w = (b.drop (o + i * w)).take w := by
      rw [hraw, List.drop_take, List.drop_drop, List.take_take]
      have hle : w + i * w ≤ t := by
        have h1 : i + 1 ≤ c * r := hic
        calc w + i * w = (i + 1) * w := by ring
        _ ≤ c * r * w := Nat.mul_le_mul_right w h1
      have : min w (t - i * w) = w := by omega
      rw [this]
    rw [hsub]
    rfl

deriving instance DecidableEq for Except

/-- The decoder on an in-range request at a non-negative start address:
success, exact shape, and row-major cells scaled by the factor. -/
lemma extract_ok_of_bounds (b : List Nat) (a r c : Nat) (dtype : String) (sg : Bool) (f : ℚ)
    (d : NpDtype) (hc : 0 < c) (hd : npDtypeOf dtype sg = some d)
    (hbound : a + c * r * d.itemsize ≤ b.length) :
    ∃ g, extract_map_data b (a : Int) (c : Int) (r : Int) dtype sg f = .ok g ∧
      g.length = r ∧ (∀ row ∈ g, row.length = c) ∧
      ∀ i : Nat, i < r * c →
        (g[i / c]?).bind (fun row => row[i % c]?) =
          some ((d.decodeOne ((b.drop (a + i * d.itemsize)).take d.itemsize) : ℚ) * f) := by
  have hbpv := bytesPerVal_of_dtype dtype sg d hd
  have hcast : (a : Int) + (c : Int) * (r : Int) * bytesPerVal dtype
      = (a : Int) + ((c * r * d.itemsize : Nat) : Int) := by
    rw [hbpv]; push_cast; ring_nf
  have hbInt : (a : Int) + (c : Int) * (r : Int) * bytesPerVal dtype ≤ (b.length : Int) := by
    rw [hcast]; exact_mod_cast hbound
  rw [extract_eq_pipeline b (a : Int) (c : Int) (r : Int) dtype sg f d hd hbInt, hcast,
    pySlice_nonneg b a (c * r * d.itemsize) hbound]
  exact decodeSliceToGrid_ok b a r c d f hc hbound

/-- The decoder applied at the start of the middle section of a
concatenated buffer decodes exactly that middle section. -/
lemma extract_concrete (pre mid post : List Nat) (c r : Nat) (dtype : String) (sg : Bool)
    (f : ℚ) (d : NpDtype) (hd : npDtypeOf dtype sg = some d)
    (hmid : mid.length = c * r * d.itemsize) :
    extract_map_data (pre ++ mid ++ post) (pre.length : Int) (c : Int) (r : Int) dtype sg f
      = decodeSliceToGrid d mid (r : Int) (c : Int) f := by
  have hbpv := bytesPerVal_of_dtype dtype sg d hd
  have hblen : (pre ++ mid ++ post).length = pre.length + (mid.length + post.length) := by
    simp
  have hbound : pre.length + c * r * d.itemsize ≤ (pre ++ mid ++ post).length := by
    rw [hblen, ← hmid]; omega
  have hcast : ((pre.length : Nat) : Int) + (c : Int) * (r : Int) * bytesPerVal dtype
      = ((pre.length : Nat) : Int) + ((c * r * d.itemsize : Nat) : Int) := by
    rw [hbpv]; push_cast; ring_nf
  have hbInt : ((pre.length : Nat) : Int) + (c : Int) * (r : Int) * bytesPerVal dtype
      ≤ (((pre ++ mid ++ post).length : Nat) : Int) := by
    rw [hcast]; exact_mod_cast hbound
  rw [extract_eq_pipeline (pre ++ mid ++ post) (pre.length : Int) (c : Int) (r : Int)
      dtype sg f d hd hbInt, hcast,
    pySlice_nonneg (pre ++ mid ++ post) pre.length (c * r * d.itemsize) hbound,
    List.append_assoc, List.drop_left, ← hmid, List.take_left]

/-! ### The claims -/

/-- Claim C1: for every call to `extract_map_data` with positive rows and
columns, one of the six recognised encodings, and
`start_address + columns * rows * byte_width ≤ length(buffer)`, the call
succeeds and returns a grid of exactly `rows` rows and `columns` columns,
laid out row-major (flat element `i` lands at row `i / columns`, column
`i % columns`), where each cell equals the integer decoded from the
corresponding `byte_width` bytes of the buffer (advancing `byte_width`
bytes per element with no padding) multiplied by the scale factor. -/
theorem C1_valid_decode (b : List Nat) (a r c : Nat) (dtype : String) (sg : Bool) (f : ℚ)
    (d : NpDtype) (_hr : 0 < r) (hc : 0 < c) (hd : npDtypeOf dtype sg = some d)
    (hbound : a + c * r * d.itemsize ≤ b.length) :
    ∃ g, extract_map_data b (a : Int) (c : Int) (r : Int) dtype sg f = .ok g ∧
      g.length = r ∧ (∀ row ∈ g, row.length = c) ∧
      ∀ i : Nat, i < r * c →
        (g[i / c]?).bind (fun row => row[i % c]?) =
          some ((d.decodeOne ((b.drop (a + i * d.itemsize)).take d.itemsize) : ℚ) * f) :=
  extract_ok_of_bounds b a r c dtype sg f d hc hd hbound

/-- Witness for C1 at a concrete input: a 1×2 unsigned 8-bit decode of a
two-byte buffer succeeds with one row. -/
theorem C1_valid_decode_witness :
    ∃ g, extract_map_data [1, 2] 0 2 1 "8bit" false 1 = .ok g ∧ g.length = 1 := by
  obtain ⟨g, hg, hlen, -, -⟩ :=
    C1_valid_decode [1, 2] 0 1 2 "8bit" false 1 NpDtype.u8 (by decide) (by decide)
      (by decide) (by decide)
  exact ⟨g, hg, hlen⟩

/-- Claim C2: the bounds check of `extract_map_data` is exact: with a
recognised encoding and positive shape, `start_address + total_bytes =
length(buffer)` succeeds, while `start_address + total_bytes >
length(buffer)` fails with `OutOfBounds` carrying the offending address,
the requested byte count and the actual buffer length. -/
theorem C2_bounds_exact (b : List Nat) (a r c : Nat) (dtype : String) (sg : Bool) (f : ℚ)
    (d : NpDtype) (_hr : 0 < r) (hc : 0 < c) (hd : npDtypeOf dtype sg = some d) :
    (a + c * r * d.itemsize = b.length →
      ∃ g, extract_map_data b (a : Int) (c : Int) (r : Int) dtype sg f = .ok g) ∧
    (b.length < a + c * r * d.itemsize →
      extract_map_data b (a : Int) (c : Int) (r : Int) dtype sg f =
        .error (.outOfBounds (a : Int) ((c * r * d.itemsize : Nat) : Int) b.length)) := by
  have hbpv := bytesPerVal_of_dtype dtype sg d hd
  constructor
  · intro he
    obtain ⟨g, hg, -, -, -⟩ := extract_ok_of_bounds b a r c dtype sg f d hc hd (le_of_eq he)
    exact ⟨g, hg⟩
  · intro hlt
    have hltInt : ((b.length : Nat) : Int)
        < (a : Int) + (c : Int) * (r : Int) * bytesPerVal dtype := by
      rw [hbpv]
      have : ((a + c * r * d.itemsize : Nat) : Int)
          = (a : Int) + (c : Int) * (r : Int) * (d.itemsize : Int) := by push_cast; ring_nf
      rw [← this]
      exact_mod_cast hlt
    rw [extract_outOfBounds b (a : Int) (c : Int) (r : Int) dtype sg f hltInt]
    congr 1
    rw [hbpv]
    push_cast
    ring_nf

/-- Witness for C2 at concrete inputs: decoding one unsigned byte from a
one-byte buffer at its exact end succeeds, and from an empty buffer fails
with `OutOfBounds 0 1 0`. -/
theorem C2_bounds_exact_witness :
    (∃ g, extract_map_data [5] 0 1 1 "8bit" false 1 = .ok g) ∧
    extract_map_data [] 0 1 1 "8bit" false 1 = .error (.outOfBounds 0 1 0) := by
  constructor
  · exact (C2_bounds_exact [5] 0 1 1 "8bit" false 1 NpDtype.u8 (by decide) (by decide)
      (by decide)).1 (by decide)
  · exact (C2_bounds_exact [] 0 1 1 "8bit" false 1 NpDtype.u8 (by decide) (by decide)
      (by decide)).2 (by decide)

/-- Counterexample to claim C3: the source performs the bounds check before
the encoding dispatch, so an unsupported `data_type` whose requested range
is also out of bounds raises `IndexError` (`OutOfBounds`), not
`ValueError` (`UnsupportedEncoding`). -/
theorem C3_order_counterexample :
    extract_map_data [] 0 1 1 "foo" false 1 = .error (.outOfBounds 0 1 0) ∧
    extract_map_data [] 0 1 1 "foo" false 1 ≠ .error (.unsupportedDataType "foo") := by
  exact ⟨rfl, by decide⟩

/-- Claim C3 as amended: a call whose `data_type` is not one of the three
recognised strings never returns a grid, and fails with
`UnsupportedEncoding` whenever the bounds check passes; the bounds check
is performed first, so an out-of-bounds unsupported request yields
`OutOfBounds` instead (see the counterexample). -/
theorem C3_unsupported_encoding (b : List Nat) (a c r : Int) (dtype : String) (sg : Bool)
    (f : ℚ) (h8 : dtype ≠ "8bit") (hbe : dtype ≠ "16bit_hi_lo")
    (hle : dtype ≠ "16bit_lo_hi") :
    (∀ g, extract_map_data b a c r dtype sg f ≠ .ok g) ∧
    (a + c * r * bytesPerVal dtype ≤ (b.length : Int) →
      extract_map_data b a c r dtype sg f = .error (.unsupportedDataType dtype)) := by
  have hnone : npDtypeOf dtype sg = none := by
    unfold npDtypeOf
    rw [if_neg h8, if_neg hbe, if_neg hle]
  have herr : a + c * r * bytesPerVal dtype ≤ (b.length : Int) →
      extract_map_data b a c r dtype sg f = .error (.unsupportedDataType dtype) := by
    intro hb
    unfold extract_map_data
    rw [if_neg (not_lt.mpr hb), hnone]
  refine ⟨?_, herr⟩
  intro g hg
  by_cases hb : (b.length : Int) < a + c * r * bytesPerVal dtype
  · rw [extract_outOfBounds b a c r dtype sg f hb] at hg
    exact Except.noConfusion hg
  · rw [herr (not_lt.mp hb)] at hg
    exact Except.noConfusion hg

/-- Witness for C3's amended theorem at a concrete input: the unrecognised
data type `"weird"` on an in-bounds request yields `UnsupportedEncoding`
and no grid. -/
theorem C3_unsupported_encoding_witness :
    extract_map_data [0, 0] 0 1 1 "weird" false 1 =
      .error (.unsupportedDataType "weird") := by
  exact (C3_unsupported_encoding [0, 0] 0 1 1 "weird" false 1 (by decide) (by decide)
    (by decide)).2 (by decide)

/-- Claim C4 (validation layer modelled from the spec): a descriptor with
non-positive columns or rows, or a negative start address, is rejected
with `InvalidDescriptor` by descriptor validation, so the decoder is never
reached and never returns a zero-sized grid as a success. -/
theorem C4_invalid_descriptor (b : List Nat) (a c r : Int) (dtype : String) (sg : Bool)
    (f : ℚ) (h : c ≤ 0 ∨ r ≤ 0 ∨ a < 0) :
    decodeValidated b a c r dtype sg f = .error .invalidDescriptor ∧
    ∀ g, decodeValidated b a c r dtype sg f ≠ .ok g := by
  have he : decodeValidated b a c r dtype sg f = .error .invalidDescriptor := by
    unfold decodeValidated validateDescriptor
    rw [if_pos h]
  refine ⟨he, ?_⟩
  intro g hg
  rw [he] at hg
  exact Except.noConfusion hg

/-- Witness for C4 at a concrete input: `columns = 0` is rejected with
`InvalidDescriptor`. -/
theorem C4_invalid_descriptor_witness :
    decodeValidated [1, 2] 0 0 1 "8bit" false 1 = .error .invalidDescriptor := by
  exact (C4_invalid_descriptor [1, 2] 0 0 1 "8bit" false 1 (Or.inl (by decide))).1

/-- Claim C5: the two bytes `0x01 0x00` at the decoded position yield `1`
under the little-endian unsigned 16-bit encoding (`"16bit_lo_hi"`,
unsigned) and `256` under the big-endian unsigned 16-bit encoding
(`"16bit_hi_lo"`, unsigned), with scale factor 1. -/
theorem C5_endianness (pre post : List Nat) :
    extract_map_data (pre ++ [1, 0] ++ post) (pre.length : Int) 1 1 "16bit_lo_hi" false 1
      = .ok [[1]] ∧
    extract_map_data (pre ++ [1, 0] ++ post) (pre.length : Int) 1 1 "16bit_hi_lo" false 1
      = .ok [[256]] := by
  constructor
  · have h1 := extract_concrete pre [1, 0] post 1 1 "16bit_lo_hi" false 1 NpDtype.u16le
      (by decide) (by decide)
    simp only [Nat.cast_one, Nat.cast_ofNat] at h1
    rw [h1]
    have h2 : decodeSliceToGrid NpDtype.u16le [1, 0] 1 1 1 =
        .ok [[((1 : Int) : ℚ) * 1]] := rfl
    rw [h2]
    norm_num
  · have h1 := extract_concrete pre [1, 0] post 1 1 "16bit_hi_lo" false 1 NpDtype.u16be
      (by decide) (by decide)
    simp only [Nat.cast_one, Nat.cast_ofNat] at h1
    rw [h1]
    have h2 : decodeSliceToGrid NpDtype.u16be [1, 0] 1 1 1 =
        .ok [[((256 : Int) : ℚ) * 1]] := rfl
    rw [h2]
    norm_num

/-- Claim C6: the byte `0xFF` at the decoded position yields `255` under
the unsigned 8-bit encoding and `-1` under the signed (two's-complement)
8-bit encoding, with scale factor 1. -/
theorem C6_signedness (pre post : List Nat) :
    extract_map_data (pre ++ [255] ++ post) (pre.length : Int) 1 1 "8bit" false 1
      = .ok [[255]] ∧
    extract_map_data (pre ++ [255] ++ post) (pre.length : Int) 1 1 "8bit" true 1
      = .ok [[-1]] := by
  constructor
  · have h1 := extract_concrete pre [255] post 1 1 "8bit" false 1 NpDtype.u8
      (by decide) (by decide)
    simp only [Nat.cast_one, Nat.cast_ofNat] at h1
    rw [h1]
    have h2 : decodeSliceToGrid NpDtype.u8 [255] 1 1 1 =
        .ok [[((255 : Int) : ℚ) * 1]] := rfl
    rw [h2]
    norm_num
  · have h1 := extract_concrete pre [255] post 1 1 "8bit" true 1 NpDtype.i8
      (by decide) (by decide)
    simp only [Nat.cast_one, Nat.cast_ofNat] at h1
    rw [h1]
    have h2 : decodeSliceToGrid NpDtype.i8 [255] 1 1 1 =
        .ok [[((-1 : Int) : ℚ) * 1]] := rfl
    rw [h2]
    norm_num

/-- Claim C7: a buffer containing the big-endian unsigned 16-bit encoding
of `[1, 2, 3, 4]` at the start address, decoded as 2×2, yields
`[[1, 2], [3, 4]]` with scale factor 1 and `[[0.1, 0.2], [0.3, 0.4]]`
(as rationals, `[[1/10, 2/10], [3/10, 4/10]]`) with scale factor `1/10`. -/
theorem C7_roundtrip (pre post : List Nat) :
    extract_map_data (pre ++ [0, 1, 0, 2, 0, 3, 0, 4] ++ post) (pre.length : Int) 2 2
      "16bit_hi_lo" false 1 = .ok [[1, 2], [3, 4]] ∧
    extract_map_data (pre ++ [0, 1, 0, 2, 0, 3, 0, 4] ++ post) (pre.length : Int) 2 2
      "16bit_hi_lo" false (1/10) = .ok [[1/10, 2/10], [3/10, 4/10]] := by
  constructor
  · have h1 := extract_concrete pre [0, 1, 0, 2, 0, 3, 0, 4] post 2 2 "16bit_hi_lo" false 1
      NpDtype.u16be (by decide) (by decide)
    simp only [Nat.cast_one, Nat.cast_ofNat] at h1
    rw [h1]
    have h2 : decodeSliceToGrid NpDtype.u16be [0, 1, 0, 2, 0, 3, 0, 4] 2 2 1 =
        .ok [[((1 : Int) : ℚ) * 1, ((2 : Int) : ℚ) * 1],
          [((3 : Int) : ℚ) * 1, ((4 : Int) : ℚ) * 1]] := rfl
    rw [h2]
    norm_num
  · have h1 := extract_concrete pre [0, 1, 0, 2, 0, 3, 0, 4] post 2 2 "16bit_hi_lo" false
      (1/10) NpDtype.u16be (by decide) (by decide)
    simp only [Nat.cast_one, Nat.cast_ofNat] at h1
    rw [h1]
    have h2 : decodeSliceToGrid NpDtype.u16be [0, 1, 0, 2, 0, 3, 0, 4] 2 2 (1/10) =
        .ok [[((1 : Int) : ℚ) * (1/10), ((2 : Int) : ℚ) * (1/10)],
          [((3 : Int) : ℚ) * (1/10), ((4 : Int) : ℚ) * (1/10)]] := rfl
    rw [h2]
    norm_num

/-- Claim C8: `extract_map_data` is deterministic and side-effect free —
two calls with identical inputs return identical grids; in this embedding
the buffer is an immutable value, so the call cannot mutate it. -/
theorem C8_deterministic (b1 b2 : List Nat) (a1 a2 c1 c2 r1 r2 : Int) (dt1 dt2 : String)
    (s1 s2 : Bool) (f1 f2 : ℚ) (hb : b1 = b2) (ha : a1 = a2) (hc : c1 = c2) (hr : r1 = r2)
    (hdt : dt1 = dt2) (hs : s1 = s2) (hf : f1 = f2) :
    extract_map_data b1 a1 c1 r1 dt1 s1 f1 = extract_map_data b2 a2 c2 r2 dt2 s2 f2 := by
  subst hb
  subst ha
  subst hc
  subst hr
  subst hdt
  subst hs
  subst hf
  rfl

/-- Witness for C8 at a concrete input. -/
theorem C8_deterministic_witness :
    extract_map_data [7] 0 1 1 "8bit" false 1 = extract_map_data [7] 0 1 1 "8bit" false 1 :=
  C8_deterministic [7] [7] 0 0 1 1 1 1 "8bit" "8bit" false false 1 1
    rfl rfl rfl rfl rfl rfl rfl

/-- Claim C9: a catalogue entry that omits the optional fields drives the
decode with the documented defaults — encoding `"16bit_hi_lo"`, unsigned,
scale factor 1 — and equals the decode with those arguments explicit. -/
theorem C9_defaults (b : List Nat) (nm : String) (a c r : Int) :
    extractFromEntry b { name := nm, address := a, cols := c, rows := r } =
      extract_map_data b a c r "16bit_hi_lo" false 1 := rfl

/-- Counterexample to claim C10 as stated: with `start_address = -2` on a
4-byte buffer, `columns = 2`, `rows = 1`, unsigned 8-bit (so
`total_bytes = 2` and `start_address + total_bytes = 0 ≤ 0`), the bounds
check passes but the call fails (the Python slice `b[-2:0]` is empty
because the stop index `0` is absolute, and the reshape of 0 elements to
1×2 raises), instead of succeeding as the claim asserts. -/
theorem C10_negative_start_counterexample :
    (-2 : Int) < 0 ∧ (-2 : Int) + 2 * 1 * bytesPerVal "8bit" ≤ 0 ∧
    (0 : Int) ≤ ([0, 0, 0, 0] : List Nat).length + (-2) ∧
    extract_map_data [0, 0, 0, 0] (-2) 2 1 "8bit" false 1 = .error .reshapeMismatch := by
  exact ⟨by decide, by decide, by decide, rfl⟩

/-- Claim C10 as amended: the decoder does not reject negative start
addresses; when `start_address < 0`, `start_address + total_bytes < 0`
(strictly — at exactly `0` the slice is empty and the reshape fails, see
the counterexample) and `length(buffer) + start_address ≥ 0`, with a
recognised encoding and a positive shape, the bounds check passes and the
call succeeds, decoding from offset `length(buffer) + start_address`
(Python negative-slice semantics), not from `start_address`. -/
theorem C10_negative_start (b : List Nat) (start : Int) (r c : Nat) (dtype : String)
    (sg : Bool) (f : ℚ) (d : NpDtype) (_hr : 0 < r) (hc : 0 < c)
    (hd : npDtypeOf dtype sg = some d) (hs : start < 0)
    (hst : start + ((c * r * d.itemsize : Nat) : Int) < 0)
    (hlen : 0 ≤ (b.length : Int) + start) :
    ∃ g, extract_map_data b start (c : Int) (r : Int) dtype sg f = .ok g ∧
      g.length = r ∧ (∀ row ∈ g, row.length = c) ∧
      ∀ i : Nat, i < r * c →
        (g[i / c]?).bind (fun row => row[i % c]?) =
          some ((d.decodeOne ((b.drop (((b.length : Int) + start).toNat + i * d.itemsize)).take
            d.itemsize) : ℚ) * f) := by
  have hbpv := bytesPerVal_of_dtype dtype sg d hd
  have hcast : start + (c : Int) * (r : Int) * bytesPerVal dtype
      = start + ((c * r * d.itemsize : Nat) : Int) := by
    rw [hbpv]; push_cast; ring_nf
  have hbInt : start + (c : Int) * (r : Int) * bytesPerVal dtype ≤ (b.length : Int) := by
    rw [hcast]; omega
  rw [extract_eq_pipeline b start (c : Int) (r : Int) dtype sg f d hd hbInt, hcast,
    pySlice_negStart b start ((c * r * d.itemsize : Nat) : Int) hs (by omega) hst hlen,
    Int.toNat_natCast]
  have hbound : ((b.length : Int) + start).toNat + c * r * d.itemsize ≤ b.length := by omega
  exact decodeSliceToGrid_ok b (((b.length : Int) + start).toNat) r c d f hc hbound

/-- Witness for C10's amended theorem at a concrete input: a 1×2 unsigned
8-bit decode with `start_address = -3` on a 4-byte buffer succeeds with
one row. -/
theorem C10_negative_start_witness :
    ∃ g, extract_map_data [9, 9, 1, 2] (-3) 2 1 "8bit" false 1 = .ok g ∧ g.length = 1 := by
  obtain ⟨g, hg, hglen, -, -⟩ :=
    C10_negative_start [9, 9, 1, 2] (-3) 1 2 "8bit" false 1 NpDtype.u8 (by decide)
      (by decide) (by decide) (by decide) (by decide) (by decide)
  exact ⟨g, hg, hglen⟩
